import Mathlib

/-!
Verification development for the strict-variant repository.

The repository sources under verification are:
* `include/strict_variant/recursive_wrapper.hpp` — the indirection wrapper
  (`recursive_wrapper<T>`), its pierce helpers and the
  `wrap_if_throwing_move` trait; this file is present in full and is the
  authority for every definition derived from it below.
* `test/tutorial_basic.cpp` — tutorial/test code exercising the variant.
* `include/safe_variant/variant_fwd.hpp` — forward declarations only.

The variant engine itself (`variant.hpp`: storage, tag, `get`, the
alternative resolver, visitor dispatch) is not among the source files; those
parts are modelled from the specification and carry a doc comment starting
with `Modelled from the spec:`.

Heap model: C++ `new`/`delete`/pointer dereference are modelled by an
explicit heap, a partial map from addresses (`Nat`) to values, together with
a bump allocator.  Undefined behaviour (dereferencing a null pointer,
writing through or deleting a dangling pointer) is modelled as the fault
value `none` of an `Option` result.
-/

/-- A heap of cells holding values of type `T`.  `next` is the bump-allocator
frontier; `cells a` is the content of address `a`, `none` when `a` is not
allocated. -/
structure Heap (T : Type) where
  next : Nat
  cells : Nat → Option T

/-- Read the cell at address `a` (models `*p` for reading; `none` when `a`
is unallocated, i.e. the dereference is a fault). -/
def Heap.read {T : Type} (h : Heap T) (a : Nat) : Option T :=
  h.cells a

/-- Allocate a fresh cell holding `v` (models `new T(...)`); returns the new
heap and the fresh address. -/
def Heap.alloc {T : Type} (h : Heap T) (v : T) : Heap T × Nat :=
  (⟨h.next + 1, fun a => if a = h.next then some v else h.cells a⟩, h.next)

/-- Write `v` through address `a` (models `*p = v`).  Faults (`none`) when
`a` is not an allocated cell, which covers writing through a dangling
pointer. -/
def Heap.write {T : Type} (h : Heap T) (a : Nat) (v : T) : Option (Heap T) :=
  if (h.cells a).isSome then
    some ⟨h.next, fun b => if b = a then some v else h.cells b⟩
  else none

/-- Deallocate the cell at `a` (models `delete p`).  Faults (`none`) when
`a` is not allocated, which covers a double free. -/
def Heap.free {T : Type} (h : Heap T) (a : Nat) : Option (Heap T) :=
  if (h.cells a).isSome then
    some ⟨h.next, fun b => if b = a then none else h.cells b⟩
  else none

/-- Well-formedness of a heap: every allocated address lies below the
allocator frontier, so `alloc` always returns a genuinely fresh address. -/
def Heap.WF {T : Type} (h : Heap T) : Prop :=
  ∀ a, (h.cells a).isSome → a < h.next

/-- The state of a `recursive_wrapper<T>` object: its single data member
`T * m_t`, a possibly-null pointer (`none` models `nullptr`).  From
`include/strict_variant/recursive_wrapper.hpp`. -/
structure recursive_wrapper (T : Type) where
  m_t : Option Nat

/-- Default constructor `recursive_wrapper() : m_t(new T())`.  The C++
default constructor of `T` is passed in as the value `d` (the constructor
fails to compile when `T` has none; in the model the caller must supply
`d`). -/
def recursive_wrapper.construct_default {T : Type} (d : T) (h : Heap T) :
    recursive_wrapper T × Heap T :=
  let p := h.alloc d
  (⟨some p.2⟩, p.1)

/-- Converting constructor `recursive_wrapper(U && u) : m_t(new T(std::forward<U>(u)))`.
The `enable_if_t<is_convertible<U, T>>` constraint is modelled by requiring a
conversion function `conv : U → T`. -/
def recursive_wrapper.construct_from {U T : Type} (conv : U → T) (u : U) (h : Heap T) :
    recursive_wrapper T × Heap T :=
  let p := h.alloc (conv u)
  (⟨some p.2⟩, p.1)

/-- Accessor `get()`: returns `*m_t`.  The three C++ qualifications
(`T & get() &`, `const T & get() const &`, `T && get() &&`) all read the
single owned value; in the value-level model they coincide, so one function
represents all three.  The source performs no null check, so reading through
a null or dangling `m_t` is a fault, modelled by `none`. -/
def recursive_wrapper.get {T : Type} (w : recursive_wrapper T) (h : Heap T) : Option T :=
  w.m_t.bind h.read

/-- Copy constructor `recursive_wrapper(const recursive_wrapper & rhs) : m_t(new T(rhs.get()))`:
reads the source pointee (fault if `rhs` is empty) and deep-copies it into a
fresh allocation. -/
def recursive_wrapper.copy_construct {T : Type} (rhs : recursive_wrapper T) (h : Heap T) :
    Option (recursive_wrapper T × Heap T) :=
  (rhs.get h).map (fun v => let p := h.alloc v; (⟨some p.2⟩, p.1))

/-- Move constructor `recursive_wrapper(recursive_wrapper && rhs) noexcept : m_t(rhs.m_t) { rhs.m_t = nullptr; }`:
returns (new wrapper, source after the move).  No heap interaction at all —
a pure pointer transfer, which is why it is `noexcept`. -/
def recursive_wrapper.move_construct {T : Type} (rhs : recursive_wrapper T) :
    recursive_wrapper T × recursive_wrapper T :=
  (⟨rhs.m_t⟩, ⟨none⟩)

/-- Private member `assign(U && u) { *m_t = std::forward<U>(u); }`: assigns
through the existing pointee.  The source has no null check, so a null
`m_t` is a null dereference (fault `none`), and a dangling `m_t` is a
use-after-free (fault via `Heap.write`).  The wrapper's `m_t` field is not
touched. -/
def recursive_wrapper.assign {T : Type} (w : recursive_wrapper T) (u : T) (h : Heap T) :
    Option (Heap T) :=
  match w.m_t with
  | none => none
  | some a => h.write a u

/-- Private member `destroy() { if (m_t) { delete m_t; } }`: frees the held
allocation when the pointer is non-null, does nothing when it is null (the
moved-from state). -/
def recursive_wrapper.destroy {T : Type} (w : recursive_wrapper T) (h : Heap T) :
    Option (Heap T) :=
  match w.m_t with
  | none => some h
  | some a => h.free a

/-- Copy assignment `operator=(const recursive_wrapper & rhs) { this->assign(rhs.get()); }`:
reads the source pointee, then assigns through the target's existing
pointee.  Neither wrapper's `m_t` field changes. -/
def recursive_wrapper.copy_assign {T : Type} (tgt rhs : recursive_wrapper T) (h : Heap T) :
    Option (Heap T) :=
  (rhs.get h).bind (fun v => tgt.assign v h)

/-- Move assignment `operator=(recursive_wrapper && rhs) noexcept { this->destroy(); m_t = rhs.m_t; rhs.m_t = nullptr; }`:
frees the target's current allocation (if any), then takes the source's
pointer and nulls the source.  Returns (target after, source after, heap
after). -/
def recursive_wrapper.move_assign {T : Type} (tgt rhs : recursive_wrapper T) (h : Heap T) :
    Option (recursive_wrapper T × recursive_wrapper T × Heap T) :=
  (tgt.destroy h).map (fun h2 => (⟨rhs.m_t⟩, ⟨none⟩, h2))

/-- Move assignment applied with `rhs` aliasing `*this` (`w = std::move(w)`).
Tracing the source statements on the single object `w`: `this->destroy()`
frees `w.m_t` if non-null; `m_t = rhs.m_t` reads the object's own (unchanged)
field; `rhs.m_t = nullptr` writes `none` through the same object.  Net
effect: the allocation is freed once and the wrapper ends empty. -/
def recursive_wrapper.self_move_assign {T : Type} (w : recursive_wrapper T) (h : Heap T) :
    Option (recursive_wrapper T × Heap T) :=
  (w.destroy h).map (fun h2 => (⟨none⟩, h2))

/-- Value assignment `operator=(const T & t)` and `operator=(T && t)`: both
forward to `assign(t)`, i.e. `*m_t = t`.  One model function represents
both overloads. -/
def recursive_wrapper.value_assign {T : Type} (w : recursive_wrapper T) (t : T) (h : Heap T) :
    Option (Heap T) :=
  w.assign t h

/-- A storage slot of a variant alternative: either a bare value of `T` or a
`recursive_wrapper<T>` holding it behind an allocation.  This is the domain
of the `pierce_recursive_wrapper` overload set. -/
inductive Stored (T : Type) where
  | bare : T → Stored T
  | wrapped : recursive_wrapper T → Stored T

/-- The `detail::pierce_recursive_wrapper` overload set: on a bare value
`T & t` (and its const/rvalue variants) it returns `t` itself — the
identity, which never touches the heap and cannot fail; on a
`recursive_wrapper<T> & t` (and its const/rvalue variants) it returns
`t.get()`, the wrapped pointee.  The six C++ overloads differ only in
reference qualification, which the value-level model collapses. -/
def pierce_recursive_wrapper {T : Type} (s : Stored T) (h : Heap T) : Option T :=
  match s with
  | .bare t => some t
  | .wrapped w => w.get h

/-- Modelled from the spec: type-indexed access on a storage slot pierces
any indirection wrapper before handing the value to the caller (spec §4.5;
the variant-level `get` is in the missing `variant.hpp`). -/
def access_stored {T : Type} (s : Stored T) (h : Heap T) : Option T :=
  pierce_recursive_wrapper s h

/-- Modelled from the spec: visitor dispatch on a storage slot pierces any
indirection wrapper, then invokes the visitor's branch on the underlying
value (spec §4.6; `apply_visitor` lives in the missing `variant.hpp`). -/
def apply_visitor_stored {T R : Type} (f : T → R) (s : Stored T) (h : Heap T) : Option R :=
  (pierce_recursive_wrapper s h).map f

/-- Compile-time properties of a C++ type that the `wrap_if_throwing_move`
trait inspects (`std::is_nothrow_move_constructible`,
`std::is_nothrow_destructible`, `std::is_reference`). -/
structure CppType where
  nothrow_move_constructible : Bool
  nothrow_destructible : Bool
  is_reference : Bool
deriving DecidableEq

/-- Result of a type-level computation that either leaves a type alone or
wraps it in `recursive_wrapper`. -/
inductive WrapResult where
  | plain : CppType → WrapResult
  | wrapped : CppType → WrapResult
deriving DecidableEq

/-- The trait `wrap_if_throwing_move<T>::type` from
`recursive_wrapper.hpp`: `std::conditional<is_nothrow_move_constructible<T>, T, recursive_wrapper<T>>`.
(The trait's `enable_if` constraint — `T` nothrow-destructible and not a
reference — appears as hypotheses of the theorem about it.) -/
def wrap_if_throwing_move_t (t : CppType) : WrapResult :=
  if t.nothrow_move_constructible then WrapResult.plain t else WrapResult.wrapped t

/-- Move-construction of a storage slot, parametrised by the alternative
type's own move constructor `mc` (which may throw, modelled by `none`).  A
bare alternative runs `mc`; a wrapped alternative is the `noexcept` pointer
transfer of `recursive_wrapper`'s move constructor and never consults `mc`.
Returns (new slot, source slot after the move). -/
def Stored.move_construct {T : Type} (mc : T → Option T) (s : Stored T) :
    Option (Stored T × Stored T) :=
  match s with
  | .bare t => (mc t).map (fun t2 => (.bare t2, .bare t))
  | .wrapped w => some (.wrapped ⟨w.m_t⟩, .wrapped ⟨none⟩)

/-- Modelled from the spec: the variant container (`variant.hpp` is not in
the sources).  Per spec §3, a union instance owns exactly one active value
whose alternative index is recorded by the discriminant `which`; the
alternative list `T0..Tn-1` (distinct types, so a type determines its index)
is modelled by the family `Ty : Fin n → Type`. -/
structure Variant (n : Nat) (Ty : Fin n → Type) where
  which : Fin n
  val : Ty which

/-- Modelled from the spec: assignment `container = v` for a value of
alternative `i` replaces the active value and sets the discriminant
(spec §4.4). -/
def Variant.assign {n : Nat} {Ty : Fin n → Type} (_v : Variant n Ty) (i : Fin n)
    (x : Ty i) : Variant n Ty :=
  ⟨i, x⟩

/-- Modelled from the spec: type-indexed access `get<T>(&v)` (spec §4.5):
returns a pointer to the stored value when the discriminant indicates the
requested alternative is active, otherwise `nullptr` (`none`); never
converts, never throws. -/
def Variant.get {n : Nat} {Ty : Fin n → Type} (v : Variant n Ty) (i : Fin n) :
    Option (Ty i) :=
  if h : v.which = i then some (h ▸ v.val) else none

/-- Arithmetic conversion categories distinguished by the resolver
(spec §4.2): boolean, signed integer, unsigned integer, floating point. -/
inductive ArithCategory where
  | boolean
  | signed_int
  | unsigned_int
  | floating
deriving DecidableEq

/-- An arithmetic type as the resolver sees it: its category and bit
width. -/
structure ArithTy where
  cat : ArithCategory
  width : Nat
deriving DecidableEq

/-- Modelled from the spec: the safe-conversion predicate of the resolver
(spec §4.2 tier 2): a conversion from `u` to `t` is admissible only when it
is a same-category widening — never narrowing, never crossing
signed/unsigned, never crossing integer/floating. -/
def safely_widens (u t : ArithTy) : Bool :=
  decide (u.cat = t.cat ∧ u.width ≤ t.width)

/-- Modelled from the spec: the exact-match tier — indices of alternatives
whose type equals the input type verbatim (spec §4.2 tier 1). -/
def exact_tier (alts : List ArithTy) (u : ArithTy) : List Nat :=
  (List.range alts.length).filter (fun i => decide (alts.get? i = some u))

/-- Modelled from the spec: the safe-widening tier — indices of alternatives
reachable from the input by a proper same-category widening conversion
(spec §4.2 tier 2; exact matches belong to tier 1, not here). -/
def widen_tier (alts : List ArithTy) (u : ArithTy) : List Nat :=
  (List.range alts.length).filter (fun i =>
    match alts.get? i with
    | some t => !decide (t = u) && safely_widens u t
    | none => false)

/-- Modelled from the spec: the alternative resolver (spec §4.2 steps 2–4):
take the most-preferred non-empty tier; succeed only when it has exactly one
candidate; a tier with several candidates is a hard rejection (ambiguous),
never a pick by source order; no candidate in any tier is a rejection
(unconvertible). -/
def resolve (alts : List ArithTy) (u : ArithTy) : Option Nat :=
  match exact_tier alts u with
  | [i] => some i
  | [] =>
    match widen_tier alts u with
    | [i] => some i
    | _ => none
  | _ => none

/-! Basic facts about the heap model, shared by several claim proofs. -/

theorem Heap.read_alloc_self {T : Type} (h : Heap T) (v : T) :
    (h.alloc v).1.read (h.alloc v).2 = some v := by
  simp [Heap.alloc, Heap.read]

theorem Heap.read_alloc_ne {T : Type} (h : Heap T) (v : T) {a : Nat}
    (hne : a ≠ h.next) : (h.alloc v).1.read a = h.read a := by
  simp [Heap.alloc, Heap.read, hne]

theorem Heap.WF.lt_next {T : Type} {h : Heap T} (hwf : h.WF) {a : Nat}
    (ha : (h.read a).isSome) : a < h.next :=
  hwf a ha

theorem Heap.write_eq_some {T : Type} {h : Heap T} {a : Nat}
    (ha : (h.cells a).isSome) (v : T) :
    h.write a v = some ⟨h.next, fun b => if b = a then some v else h.cells b⟩ := by
  simp [Heap.write, ha]

theorem Heap.free_eq_some {T : Type} {h : Heap T} {a : Nat}
    (ha : (h.cells a).isSome) :
    h.free a = some ⟨h.next, fun b => if b = a then none else h.cells b⟩ := by
  simp [Heap.free, ha]

/-- C6: constructing a wrapper with no argument heap-allocates a
default-constructed `T` (the default value `d`; absence of a default
constructor is a compile-time failure outside the value model), constructing
from `u` holds `T` constructed from `u` via the admissible conversion, and
`get()` — in each of its three reference qualifications, which coincide at
the value level — returns the single owned value: `get` on a wrapper created
from `v` yields `T(v)`. -/
theorem claim_C6_wrapper_construct_get {U T : Type} (conv : U → T) (u : U) (d : T)
    (h hd : Heap T) :
    ((recursive_wrapper.construct_from conv u h).1.get
        (recursive_wrapper.construct_from conv u h).2 = some (conv u)) ∧
    ((recursive_wrapper.construct_default d hd).1.get
        (recursive_wrapper.construct_default d hd).2 = some d) := by
  constructor <;>
    simp [recursive_wrapper.construct_from, recursive_wrapper.construct_default,
      recursive_wrapper.get, Heap.alloc, Heap.read]

/-- C1: after assigning a value `x` of alternative `i` to the container,
type-indexed access at `i` returns the value `x` (non-null, comparing
equal), and access at every other alternative `j ≠ i` reports absence
(null). -/
theorem claim_C1_assign_get_roundtrip {n : Nat} {Ty : Fin n → Type} (v : Variant n Ty)
    (i : Fin n) (x : Ty i) :
    ((v.assign i x).get i = some x) ∧
    (∀ j : Fin n, j ≠ i → (v.assign i x).get j = none) := by
  constructor
  · simp [Variant.assign, Variant.get]
  · intro j hj
    simp only [Variant.assign, Variant.get]
    exact dif_neg (fun hh => hj hh.symm)

/-- Witness for C1 at a concrete container over two alternatives. -/
theorem claim_C1_assign_get_roundtrip_witness :
    (((⟨0, (0 : Nat)⟩ : Variant 2 (fun _ => Nat)).assign 0 7).get 0 = some 7) ∧
    (((⟨0, (0 : Nat)⟩ : Variant 2 (fun _ => Nat)).assign 0 7).get 1 = none) :=
  ⟨(claim_C1_assign_get_roundtrip (⟨0, (0 : Nat)⟩ : Variant 2 (fun _ => Nat)) 0 7).1,
   (claim_C1_assign_get_roundtrip (⟨0, (0 : Nat)⟩ : Variant 2 (fun _ => Nat)) 0 7).2 1
     (by decide)⟩

/-- C9: type-indexed access reports absence (a null result, never a raised
failure — the result type is a plain nullable value) exactly when the
requested alternative is not the active one; this holds even when a
conversion `conv` from the active alternative's type to the requested one
exists, because `get` never consults any conversion. -/
theorem claim_C9_mismatch_is_absence {n : Nat} {Ty : Fin n → Type} (v : Variant n Ty)
    (j : Fin n) (conv : Ty v.which → Ty j) :
    v.get j = none ↔ j ≠ v.which := by
  unfold Variant.get
  split
  · rename_i hw
    subst hw
    simp
  · rename_i hw
    simp only [true_iff]
    exact fun hh => hw hh.symm

/-- Witness for C9 at a concrete container where the identity conversion to
the requested alternative exists and access still reports absence. -/
theorem claim_C9_mismatch_is_absence_witness :
    ((⟨0, (5 : Nat)⟩ : Variant 2 (fun _ => Nat)).get 1 = none ↔ (1 : Fin 2) ≠ 0) :=
  claim_C9_mismatch_is_absence (⟨0, (5 : Nat)⟩ : Variant 2 (fun _ => Nat)) 1 (fun x => x)

/-- C7: pierce on a bare value is the identity (returns that same value, and
never touches the heap), pierce on an indirection wrapper returns the
wrapped pointee — in each reference qualification, which coincide at the
value level — and consequently type-indexed access and visitor dispatch give
identical results whether the alternative is stored wrapped or bare. -/
theorem claim_C7_pierce_transparency {T R : Type} (t : T) (h : Heap T)
    (w : recursive_wrapper T) (v : T) (hv : w.get h = some v) (f : T → R) :
    pierce_recursive_wrapper (Stored.bare t) h = some t ∧
    pierce_recursive_wrapper (Stored.wrapped w) h = some v ∧
    access_stored (Stored.wrapped w) h = access_stored (Stored.bare v) h ∧
    apply_visitor_stored f (Stored.wrapped w) h = apply_visitor_stored f (Stored.bare v) h := by
  refine ⟨rfl, hv, ?_, ?_⟩ <;>
    simp [access_stored, apply_visitor_stored, pierce_recursive_wrapper, hv]

/-- Witness for C7: a concrete heap holding `42` at address `0`, a wrapper
pointing at it, and a concrete visitor. -/
theorem claim_C7_pierce_transparency_witness :
    ((⟨some 0⟩ : recursive_wrapper Nat).get
        ⟨1, fun b => if b = 0 then some 42 else none⟩ = some 42) ∧
    (pierce_recursive_wrapper (Stored.bare 7)
        (⟨1, fun b => if b = 0 then some 42 else none⟩ : Heap Nat) = some 7 ∧
     pierce_recursive_wrapper (Stored.wrapped ⟨some 0⟩)
        (⟨1, fun b => if b = 0 then some 42 else none⟩ : Heap Nat) = some 42 ∧
     access_stored (Stored.wrapped ⟨some 0⟩)
        (⟨1, fun b => if b = 0 then some 42 else none⟩ : Heap Nat) =
       access_stored (Stored.bare 42) (⟨1, fun b => if b = 0 then some 42 else none⟩ : Heap Nat) ∧
     apply_visitor_stored Nat.succ (Stored.wrapped ⟨some 0⟩)
        (⟨1, fun b => if b = 0 then some 42 else none⟩ : Heap Nat) =
       apply_visitor_stored Nat.succ (Stored.bare 42)
        (⟨1, fun b => if b = 0 then some 42 else none⟩ : Heap Nat)) :=
  ⟨rfl, claim_C7_pierce_transparency 7 ⟨1, fun b => if b = 0 then some 42 else none⟩
      ⟨some 0⟩ 42 rfl Nat.succ⟩

/-- C8: for every type `T` admissible to the trait (nothrow-destructible and
not a reference, the trait's `enable_if` constraint), `wrap_if_throwing_move`
maps `T` to `T` itself exactly when `T` is no-throw move-constructible and
to `recursive_wrapper<T>` exactly otherwise; and move-constructing a wrapped
storage slot is a pure pointer transfer that succeeds for every move
constructor of the wrapped type — even one that always throws — so the
storage-swap path over a wrapped alternative cannot throw. -/
theorem claim_C8_wrap_if_throwing_move {T : Type} (t : CppType)
    (hd : t.nothrow_destructible = true) (hr : t.is_reference = false)
    (mc : T → Option T) (w : recursive_wrapper T) :
    (wrap_if_throwing_move_t t = WrapResult.plain t ↔
      t.nothrow_move_constructible = true) ∧
    (wrap_if_throwing_move_t t = WrapResult.wrapped t ↔
      t.nothrow_move_constructible = false) ∧
    (Stored.move_construct mc (Stored.wrapped w) =
      some (Stored.wrapped ⟨w.m_t⟩, Stored.wrapped ⟨none⟩)) := by
  refine ⟨?_, ?_, rfl⟩ <;>
    unfold wrap_if_throwing_move_t <;>
    cases hm : t.nothrow_move_constructible <;> simp [hm]

/-- Witness for C8 at a concrete throwing-move type and an always-throwing
move constructor. -/
theorem claim_C8_wrap_if_throwing_move_witness :
    ((⟨false, true, false⟩ : CppType).nothrow_destructible = true) ∧
    ((⟨false, true, false⟩ : CppType).is_reference = false) ∧
    ((wrap_if_throwing_move_t ⟨false, true, false⟩ =
        WrapResult.plain ⟨false, true, false⟩ ↔
      (⟨false, true, false⟩ : CppType).nothrow_move_constructible = true) ∧
     (wrap_if_throwing_move_t ⟨false, true, false⟩ =
        WrapResult.wrapped ⟨false, true, false⟩ ↔
      (⟨false, true, false⟩ : CppType).nothrow_move_constructible = false) ∧
     (Stored.move_construct (fun _ : Nat => none) (Stored.wrapped ⟨some 0⟩) =
      some (Stored.wrapped ⟨(⟨some 0⟩ : recursive_wrapper Nat).m_t⟩, Stored.wrapped ⟨none⟩))) :=
  ⟨rfl, rfl,
   claim_C8_wrap_if_throwing_move ⟨false, true, false⟩ rfl rfl (fun _ : Nat => none) ⟨some 0⟩⟩

/-! Membership characterisations of the resolver's candidate tiers. -/

theorem mem_exact_tier {alts : List ArithTy} {u : ArithTy} {i : Nat} :
    i ∈ exact_tier alts u ↔ i < alts.length ∧ alts.get? i = some u := by
  simp [exact_tier, List.mem_filter, List.mem_range]

theorem mem_widen_tier {alts : List ArithTy} {u : ArithTy} {i : Nat} :
    i ∈ widen_tier alts u ↔
      i < alts.length ∧ ∃ t, alts.get? i = some t ∧ t ≠ u ∧ safely_widens u t = true := by
  simp only [widen_tier, List.mem_filter, List.mem_range]
  cases hget : alts.get? i <;> simp [hget]

/-- C2: the resolver only ever selects an alternative reachable by an exact
match or a same-category widening (never a narrowing, never a
signed/unsigned crossing, never an integer/floating crossing); when the
most-preferred non-empty tier holds two or more candidates, resolution fails
outright instead of picking by source order (both for the exact tier and for
the widening tier); and over `{int32, int64}` an input of 64-bit signed
integer type — a value fitting only in 64 bits — selects `int64`, never
truncating into `int32`. -/
theorem claim_C2_resolver_never_narrows :
    (∀ (alts : List ArithTy) (u : ArithTy) (i : Nat), resolve alts u = some i →
      ∃ t, alts.get? i = some t ∧ (t = u ∨ (t.cat = u.cat ∧ u.width ≤ t.width))) ∧
    (∀ (alts : List ArithTy) (u : ArithTy), 2 ≤ (exact_tier alts u).length →
      resolve alts u = none) ∧
    (∀ (alts : List ArithTy) (u : ArithTy), exact_tier alts u = [] →
      2 ≤ (widen_tier alts u).length → resolve alts u = none) ∧
    (resolve [⟨ArithCategory.signed_int, 32⟩, ⟨ArithCategory.signed_int, 64⟩]
      ⟨ArithCategory.signed_int, 64⟩ = some 1) := by
  refine ⟨?_, ?_, ?_, by decide⟩
  · intro alts u i hres
    unfold resolve at hres
    rcases hE : exact_tier alts u with _ | ⟨i0, _ | ⟨i1, restE⟩⟩ <;> rw [hE] at hres
    · rcases hW : widen_tier alts u with _ | ⟨j0, _ | ⟨j1, restW⟩⟩ <;> rw [hW] at hres
      · exact absurd hres (by simp)
      · have hmem : j0 ∈ widen_tier alts u := by rw [hW]; exact List.mem_singleton.mpr rfl
        rcases mem_widen_tier.mp hmem with ⟨-, t, hget, -, hsafe⟩
        have hij : j0 = i := by simpa using hres
        subst hij
        have hcw : u.cat = t.cat ∧ u.width ≤ t.width := by
          simpa [safely_widens] using hsafe
        exact ⟨t, hget, Or.inr ⟨hcw.1.symm, hcw.2⟩⟩
      · exact absurd hres (by simp)
    · have hmem : i0 ∈ exact_tier alts u := by rw [hE]; exact List.mem_singleton.mpr rfl
      rcases mem_exact_tier.mp hmem with ⟨-, hget⟩
      have hij : i0 = i := by simpa using hres
      subst hij
      exact ⟨u, hget, Or.inl rfl⟩
    · exact absurd hres (by simp)
  · intro alts u hlen
    unfold resolve
    rcases hE : exact_tier alts u with _ | ⟨i0, _ | ⟨i1, restE⟩⟩ <;>
      rw [hE] at hlen <;> simp_all
  · intro alts u hE hlen
    unfold resolve
    rw [hE]
    rcases hW : widen_tier alts u with _ | ⟨j0, _ | ⟨j1, restW⟩⟩ <;>
      rw [hW] at hlen <;> simp_all

/-- Witness for C2: a list with two exact-match candidates is rejected as
ambiguous rather than resolved by source order. -/
theorem claim_C2_resolver_never_narrows_witness :
    (2 ≤ (exact_tier [⟨ArithCategory.signed_int, 32⟩, ⟨ArithCategory.signed_int, 32⟩]
        ⟨ArithCategory.signed_int, 32⟩).length) ∧
    (resolve [⟨ArithCategory.signed_int, 32⟩, ⟨ArithCategory.signed_int, 32⟩]
        ⟨ArithCategory.signed_int, 32⟩ = none) :=
  ⟨by decide,
   claim_C2_resolver_never_narrows.2.1
     [⟨ArithCategory.signed_int, 32⟩, ⟨ArithCategory.signed_int, 32⟩]
     ⟨ArithCategory.signed_int, 32⟩ (by decide)⟩

theorem Heap.isSome_cells {T : Type} {h : Heap T} {a : Nat} {v : T}
    (hv : h.read a = some v) : (h.cells a).isSome = true := by
  change (h.read a).isSome = true
  rw [hv]
  rfl

theorem Heap.single_cell_WF {T : Type} (v : T) :
    Heap.WF (⟨1, fun b => if b = 0 then some v else none⟩ : Heap T) := by
  intro b hb
  by_cases hb0 : b = 0
  · subst hb0
    exact Nat.zero_lt_one
  · exfalso
    have hb2 : (if b = 0 then some v else none).isSome = true := hb
    rw [if_neg hb0] at hb2
    simp at hb2

/-- C5: copy construction deep-copies the pointee into a new, distinct
allocation (the fresh address differs from the source's), the source keeps
its value unchanged, and the two copies are independent (writing through the
copy's pointer leaves the source's cell and `get` untouched); move
construction transfers the pointer, so the new wrapper holds the source's
former pointer and the source becomes empty. -/
theorem claim_C5_copy_deep_move_transfer {T : Type} (rhs : recursive_wrapper T)
    (h : Heap T) (a : Nat) (v : T)
    (hwf : h.WF) (hm : rhs.m_t = some a) (hv : h.read a = some v) :
    (rhs.copy_construct h = some (⟨some h.next⟩, (h.alloc v).1)) ∧
    (h.next ≠ a) ∧
    ((⟨some h.next⟩ : recursive_wrapper T).get (h.alloc v).1 = some v) ∧
    (rhs.get (h.alloc v).1 = some v) ∧
    (∀ u h3, (h.alloc v).1.write h.next u = some h3 →
       h3.read a = some v ∧ rhs.get h3 = some v) ∧
    (rhs.move_construct = (⟨some a⟩, ⟨none⟩)) := by
  have hlt : a < h.next := hwf a (Heap.isSome_cells hv)
  have hne : h.next ≠ a := by omega
  have hne2 : a ≠ h.next := by omega
  refine ⟨?_, hne, ?_, ?_, ?_, ?_⟩
  · simp [recursive_wrapper.copy_construct, recursive_wrapper.get, hm, hv, Heap.alloc]
  · simp [recursive_wrapper.get, Heap.alloc, Heap.read]
  · simp [recursive_wrapper.get, hm, Heap.alloc, Heap.read, hne2]
    exact hv
  · intro u h3 hw
    have hcells : ((h.alloc v).1.cells h.next).isSome = true := by
      simp [Heap.alloc]
    rw [Heap.write, if_pos hcells] at hw
    cases hw
    constructor
    · simp [Heap.read, Heap.alloc, hne2]
      exact hv
    · simp [recursive_wrapper.get, hm, Heap.read, Heap.alloc, hne2]
      exact hv
  · rw [recursive_wrapper.move_construct, hm]

/-- Witness for C5 at a concrete one-cell heap. -/
theorem claim_C5_copy_deep_move_transfer_witness :
    ((⟨1, fun b => if b = 0 then some 42 else none⟩ : Heap Nat).WF ∧
     (⟨some 0⟩ : recursive_wrapper Nat).m_t = some 0 ∧
     (⟨1, fun b => if b = 0 then some 42 else none⟩ : Heap Nat).read 0 = some 42) ∧
    ((recursive_wrapper.copy_construct (⟨some 0⟩ : recursive_wrapper Nat)
        ⟨1, fun b => if b = 0 then some 42 else none⟩ =
      some (⟨some 1⟩, ((⟨1, fun b => if b = 0 then some 42 else none⟩ : Heap Nat).alloc 42).1)) ∧
     ((1 : Nat) ≠ 0) ∧
     ((⟨some 1⟩ : recursive_wrapper Nat).get
        ((⟨1, fun b => if b = 0 then some 42 else none⟩ : Heap Nat).alloc 42).1 = some 42) ∧
     ((⟨some 0⟩ : recursive_wrapper Nat).get
        ((⟨1, fun b => if b = 0 then some 42 else none⟩ : Heap Nat).alloc 42).1 = some 42) ∧
     (∀ u h3,
        ((⟨1, fun b => if b = 0 then some 42 else none⟩ : Heap Nat).alloc 42).1.write 1 u =
          some h3 → h3.read 0 = some 42 ∧ (⟨some 0⟩ : recursive_wrapper Nat).get h3 = some 42) ∧
     ((⟨some 0⟩ : recursive_wrapper Nat).move_construct = (⟨some 0⟩, ⟨none⟩))) :=
  ⟨⟨Heap.single_cell_WF 42, rfl, rfl⟩,
   claim_C5_copy_deep_move_transfer (⟨some 0⟩ : recursive_wrapper Nat)
     ⟨1, fun b => if b = 0 then some 42 else none⟩ 0 42 (Heap.single_cell_WF 42) rfl rfl⟩

/-- C3 counterexample: move assignment is an assignment "from another
wrapper", yet it does not assign through the target's existing pointee — it
transfers the source's pointer, so the target's pointer field after the
assignment (`some 1`) differs from before (`some 0`).  The claim's "for
every ... assignment ... from another wrapper ... the pointer field is the
same before and after" is therefore false at this input. -/
theorem claim_C3_move_assign_changes_pointer :
    ((recursive_wrapper.move_assign (⟨some 0⟩ : recursive_wrapper Nat) ⟨some 1⟩
        ⟨2, fun b => if b = 0 then some 10 else if b = 1 then some 20 else none⟩).map
      (fun r => r.1.m_t) = some (some 1)) ∧
    some (some 1) ≠ some ((⟨some 0⟩ : recursive_wrapper Nat).m_t) := by
  exact ⟨rfl, by decide⟩

/-- C3 (amended): copy assignment from another wrapper and assignment from a
bare value (both the copy and move value overloads forward to `assign`)
assign through the target's existing pointee and never reallocate: no
allocation is made (the allocator frontier is unchanged), the target's cell
is updated in place, every other cell is untouched, and the target's pointer
field is untouched (these operations never write `m_t`, which the model
reflects by returning only a heap); move assignment from another wrapper is
the exception — it frees the target's allocation and transfers the source's
pointer. -/
theorem claim_C3_assign_through_pointee {T : Type} (tgt rhs : recursive_wrapper T)
    (h : Heap T) (a b : Nat) (v w : T)
    (hta : tgt.m_t = some a) (hv : h.read a = some v)
    (hrb : rhs.m_t = some b) (hw : h.read b = some w) :
    (∀ u, tgt.value_assign u h =
       some ⟨h.next, fun c => if c = a then some u else h.cells c⟩) ∧
    (tgt.copy_assign rhs h = tgt.value_assign w h) ∧
    (∀ u h2, tgt.value_assign u h = some h2 →
       h2.next = h.next ∧ h2.read a = some u ∧ ∀ c, c ≠ a → h2.read c = h.read c) := by
  have hsa : (h.cells a).isSome = true := Heap.isSome_cells hv
  refine ⟨?_, ?_, ?_⟩
  · intro u
    simp [recursive_wrapper.value_assign, recursive_wrapper.assign, hta, Heap.write, hsa]
  · simp [recursive_wrapper.copy_assign, recursive_wrapper.value_assign,
      recursive_wrapper.get, hrb, hw]
  · intro u h2 hasg
    simp only [recursive_wrapper.value_assign, recursive_wrapper.assign, hta] at hasg
    rw [Heap.write, if_pos hsa] at hasg
    cases hasg
    refine ⟨rfl, by simp [Heap.read], ?_⟩
    intro c hc
    simp [Heap.read, hc]

/-- Witness for the amended C3 at a concrete two-cell heap. -/
theorem claim_C3_assign_through_pointee_witness :
    ((⟨some 0⟩ : recursive_wrapper Nat).m_t = some 0 ∧
     (⟨2, fun c => if c = 0 then some 10 else if c = 1 then some 20 else none⟩ : Heap Nat).read 0 =
       some 10 ∧
     (⟨some 1⟩ : recursive_wrapper Nat).m_t = some 1 ∧
     (⟨2, fun c => if c = 0 then some 10 else if c = 1 then some 20 else none⟩ : Heap Nat).read 1 =
       some 20) ∧
    ((∀ u, (⟨some 0⟩ : recursive_wrapper Nat).value_assign u
        ⟨2, fun c => if c = 0 then some 10 else if c = 1 then some 20 else none⟩ =
       some ⟨2, fun c => if c = 0 then some u
         else (fun c => if c = 0 then some 10 else if c = 1 then some 20 else none) c⟩) ∧
     ((⟨some 0⟩ : recursive_wrapper Nat).copy_assign ⟨some 1⟩
        ⟨2, fun c => if c = 0 then some 10 else if c = 1 then some 20 else none⟩ =
      (⟨some 0⟩ : recursive_wrapper Nat).value_assign 20
        ⟨2, fun c => if c = 0 then some 10 else if c = 1 then some 20 else none⟩) ∧
     (∀ u h2, (⟨some 0⟩ : recursive_wrapper Nat).value_assign u
        ⟨2, fun c => if c = 0 then some 10 else if c = 1 then some 20 else none⟩ = some h2 →
       h2.next = 2 ∧ h2.read 0 = some u ∧ ∀ c, c ≠ 0 → h2.read c =
         (⟨2, fun c => if c = 0 then some 10 else if c = 1 then some 20 else none⟩ : Heap Nat).read c)) :=
  ⟨⟨rfl, rfl, rfl, rfl⟩,
   claim_C3_assign_through_pointee (⟨some 0⟩ : recursive_wrapper Nat) ⟨some 1⟩
     ⟨2, fun c => if c = 0 then some 10 else if c = 1 then some 20 else none⟩
     0 1 10 20 rfl rfl rfl rfl⟩

/-- C4 counterexample: value assignment and copy assignment applied to a
moved-from (empty) wrapper do not complete safely — `assign` dereferences
the null `m_t` (`*m_t = u` with `m_t == nullptr`), a fault.  The claim's
"every form of reassignment applied to a moved-from wrapper completes
without accessing freed or null storage" is therefore false at this input. -/
theorem claim_C4_assign_moved_from_faults :
    (recursive_wrapper.value_assign (⟨none⟩ : recursive_wrapper Nat) 5
      ⟨0, fun _ => none⟩ = none) ∧
    (recursive_wrapper.copy_assign (⟨none⟩ : recursive_wrapper Nat) ⟨some 0⟩
      ⟨1, fun b => if b = 0 then some 7 else none⟩ = none) :=
  ⟨rfl, rfl⟩

/-- C4 (amended): destroying a wrapper that owns an allocation frees it
exactly once (afterwards the cell is gone and a second free of it would
fault, so it cannot be freed again); destroying a wrapper in the
already-released moved-from state frees nothing and completes; and
move-reassignment applied to a moved-from wrapper completes without
accessing freed or null storage (the heap is untouched).  Copy assignment
and value assignment, by contrast, are not safe on a moved-from wrapper:
they dereference the null pointer. -/
theorem claim_C4_moved_from_tolerance {T : Type} (w rhs : recursive_wrapper T)
    (h : Heap T) (a : Nat) (v : T)
    (hm : w.m_t = some a) (hv : h.read a = some v) :
    (w.destroy h = some ⟨h.next, fun b => if b = a then none else h.cells b⟩) ∧
    (∀ h2, w.destroy h = some h2 → h2.read a = none ∧ h2.free a = none) ∧
    ((⟨none⟩ : recursive_wrapper T).destroy h = some h) ∧
    ((⟨none⟩ : recursive_wrapper T).move_assign rhs h = some (⟨rhs.m_t⟩, ⟨none⟩, h)) ∧
    (recursive_wrapper.value_assign (⟨none⟩ : recursive_wrapper T) v h = none) := by
  have hsa : (h.cells a).isSome = true := Heap.isSome_cells hv
  refine ⟨?_, ?_, rfl, rfl, rfl⟩
  · simp only [recursive_wrapper.destroy, hm]
    rw [Heap.free, if_pos hsa]
  · intro h2 hd
    simp only [recursive_wrapper.destroy, hm] at hd
    rw [Heap.free, if_pos hsa] at hd
    cases hd
    constructor
    · simp [Heap.read]
    · simp [Heap.free]

/-- Witness for the amended C4 at a concrete one-cell heap. -/
theorem claim_C4_moved_from_tolerance_witness :
    ((⟨some 0⟩ : recursive_wrapper Nat).m_t = some 0 ∧
     (⟨1, fun b => if b = 0 then some 42 else none⟩ : Heap Nat).read 0 = some 42) ∧
    (((⟨some 0⟩ : recursive_wrapper Nat).destroy
        ⟨1, fun b => if b = 0 then some 42 else none⟩ =
      some ⟨1, fun b => if b = 0 then none
        else (fun b => if b = 0 then some 42 else none) b⟩) ∧
     (∀ h2, (⟨some 0⟩ : recursive_wrapper Nat).destroy
        ⟨1, fun b => if b = 0 then some 42 else none⟩ = some h2 →
       h2.read 0 = none ∧ h2.free 0 = none) ∧
     ((⟨none⟩ : recursive_wrapper Nat).destroy
        ⟨1, fun b => if b = 0 then some 42 else none⟩ =
      some ⟨1, fun b => if b = 0 then some 42 else none⟩) ∧
     ((⟨none⟩ : recursive_wrapper Nat).move_assign ⟨some 9⟩
        ⟨1, fun b => if b = 0 then some 42 else none⟩ =
      some (⟨(⟨some 9⟩ : recursive_wrapper Nat).m_t⟩, ⟨none⟩,
        ⟨1, fun b => if b = 0 then some 42 else none⟩)) ∧
     (recursive_wrapper.value_assign (⟨none⟩ : recursive_wrapper Nat) 42
        ⟨1, fun b => if b = 0 then some 42 else none⟩ = none)) :=
  ⟨⟨rfl, rfl⟩,
   claim_C4_moved_from_tolerance (⟨some 0⟩ : recursive_wrapper Nat) ⟨some 9⟩
     ⟨1, fun b => if b = 0 then some 42 else none⟩ 0 42 rfl rfl⟩

/-- C10: every wrapper operation leaves the wrapper empty or owning one
allocation, and an owned allocation is freed exactly once: move assignment
first frees the target's previous allocation (afterwards that cell is gone
and cannot be freed again), then takes the source's pointer, nulls the
source, and allocates nothing, leaving every other cell untouched; and
self-move-assignment completes, frees the allocation exactly once, and
leaves the wrapper in the empty (null-pointer) state rather than dangling
or double-freeing. -/
theorem claim_C10_single_ownership {T : Type} (tgt rhs : recursive_wrapper T)
    (h : Heap T) (a : Nat) (v : T)
    (hta : tgt.m_t = some a) (hv : h.read a = some v) :
    ((tgt.move_assign rhs h).isSome = true) ∧
    (∀ t2 s2 h2, tgt.move_assign rhs h = some (t2, s2, h2) →
       t2.m_t = rhs.m_t ∧ s2.m_t = none ∧ h2.read a = none ∧ h2.free a = none ∧
       h2.next = h.next ∧ (∀ b, b ≠ a → h2.read b = h.read b)) ∧
    ((tgt.self_move_assign h).isSome = true) ∧
    (∀ w2 h2, tgt.self_move_assign h = some (w2, h2) →
       w2.m_t = none ∧ h2.read a = none ∧ h2.free a = none) := by
  have hsa : (h.cells a).isSome = true := Heap.isSome_cells hv
  have hdest : tgt.destroy h = some ⟨h.next, fun b => if b = a then none else h.cells b⟩ := by
    simp only [recursive_wrapper.destroy, hta]
    rw [Heap.free, if_pos hsa]
  refine ⟨?_, ?_, ?_, ?_⟩
  · simp [recursive_wrapper.move_assign, hdest]
  · intro t2 s2 h2 hma
    rw [recursive_wrapper.move_assign, hdest] at hma
    simp only [Option.map_some'] at hma
    cases hma
    refine ⟨rfl, rfl, by simp [Heap.read], by simp [Heap.free], rfl, ?_⟩
    intro b hb
    simp [Heap.read, hb]
  · simp [recursive_wrapper.self_move_assign, hdest]
  · intro w2 h2 hma
    rw [recursive_wrapper.self_move_assign, hdest] at hma
    simp only [Option.map_some'] at hma
    cases hma
    exact ⟨rfl, by simp [Heap.read], by simp [Heap.free]⟩

/-- Witness for C10 at a concrete one-cell heap. -/
theorem claim_C10_single_ownership_witness :
    ((⟨some 0⟩ : recursive_wrapper Nat).m_t = some 0 ∧
     (⟨1, fun b => if b = 0 then some 42 else none⟩ : Heap Nat).read 0 = some 42) ∧
    ((((⟨some 0⟩ : recursive_wrapper Nat).move_assign ⟨some 9⟩
        ⟨1, fun b => if b = 0 then some 42 else none⟩).isSome = true) ∧
     (∀ t2 s2 h2, (⟨some 0⟩ : recursive_wrapper Nat).move_assign ⟨some 9⟩
        ⟨1, fun b => if b = 0 then some 42 else none⟩ = some (t2, s2, h2) →
       t2.m_t = (⟨some 9⟩ : recursive_wrapper Nat).m_t ∧ s2.m_t = none ∧
       h2.read 0 = none ∧ h2.free 0 = none ∧ h2.next = 1 ∧
       (∀ b, b ≠ 0 → h2.read b =
         (⟨1, fun b => if b = 0 then some 42 else none⟩ : Heap Nat).read b)) ∧
     (((⟨some 0⟩ : recursive_wrapper Nat).self_move_assign
        ⟨1, fun b => if b = 0 then some 42 else none⟩).isSome = true) ∧
     (∀ w2 h2, (⟨some 0⟩ : recursive_wrapper Nat).self_move_assign
        ⟨1, fun b => if b = 0 then some 42 else none⟩ = some (w2, h2) →
       w2.m_t = none ∧ h2.read 0 = none ∧ h2.free 0 = none)) :=
  ⟨⟨rfl, rfl⟩,
   claim_C10_single_ownership (⟨some 0⟩ : recursive_wrapper Nat) ⟨some 9⟩
     ⟨1, fun b => if b = 0 then some 42 else none⟩ 0 42 rfl rfl⟩
